import Mathlib

/-!
Verification of the MessyerRaytracer convention linter (tools/lint.py).

This file gives a shallow embedding of the linter's rule engine:
the per-file rule checks (header, tiger, gpu, module, naming, godot-native
families), the inline and file-level suppression resolver, and the
per-run statistics accumulator.  Python strings are modelled as Lean
`String` (lists of characters); the handful of regular expressions used
by lint.py are implemented as explicit matching functions that follow
the Python `re` backtracking semantics (leftmost match, alternatives
tried in order, greedy repetition) for exactly the patterns appearing
in the source.  File reads are modelled as `Except Unit String` inputs,
so a read failure is the `.error` case.

All definitions are executable; theorems about the claims of the
specification follow at the end of the file.
-/

/-! ### Character classes (Python `re` semantics, ASCII range) -/

/-- Python regex `\w` (ASCII range): letters, digits, underscore. -/
def isWordCh (c : Char) : Bool := c.isAlphanum || c = '_'

/-- Python regex `\s` (ASCII range): space, tab, newline, return, vtab, formfeed. -/
def isRegexSpace (c : Char) : Bool :=
  c = ' ' || c = '\t' || c = '\n' || c = '\r' || c = '\x0b' || c = '\x0c'

/-- Characters at which Python `str.splitlines` breaks a line. -/
def isLineBoundary (c : Char) : Bool :=
  c = '\n' || c = '\r' || c = '\x0b' || c = '\x0c' || c = '\x1c' ||
  c = '\x1d' || c = '\x1e' || c = '\x85' || c = '\u2028' || c = '\u2029'

/-! ### Python string primitives -/

/-- Python `str.startswith`. -/
def pyStartsWith (s pre : String) : Bool := pre.data.isPrefixOf s.data

/-- Python `str.endswith`. -/
def pyEndsWith (s suf : String) : Bool := suf.data.isSuffixOf s.data

/-- Python `str.strip()` (whitespace strip on both ends). -/
def pyStrip (s : String) : String :=
  String.mk (((s.data.dropWhile isRegexSpace).reverse.dropWhile isRegexSpace).reverse)

/-- Python `sub in s` substring containment. -/
def containsSub (s sub : List Char) : Bool :=
  (List.range (s.length + 1)).any (fun i => sub.isPrefixOf (s.drop i))

/-- Python `str.lower()` (ASCII range). -/
def pyLower (s : String) : String := String.mk (s.data.map Char.toLower)

/-- Python `str.split("::")`: split on a double colon, left to right,
non-overlapping. -/
def splitDoubleColon : List Char → List Char → List String
  | [], acc => [String.mk acc.reverse]
  | ':' :: ':' :: rest, acc => String.mk acc.reverse :: splitDoubleColon rest []
  | c :: rest, acc => splitDoubleColon rest (c :: acc)

/-- Python `str.split(",")`. -/
def splitOnComma : List Char → List Char → List String
  | [], acc => [String.mk acc.reverse]
  | c :: rest, acc =>
    if c = ',' then String.mk acc.reverse :: splitOnComma rest []
    else splitOnComma rest (c :: acc)

/-- Python `str.split("/")` (for `Path(...).name` on normalised paths). -/
def splitOnSlash : List Char → List Char → List String
  | [], acc => [String.mk acc.reverse]
  | c :: rest, acc =>
    if c = '/' then String.mk acc.reverse :: splitOnSlash rest []
    else splitOnSlash rest (c :: acc)

/-- Python `str.replace(pat, repl)`: replace every non-overlapping
occurrence left to right.  The fuel starts at the string length; every
step consumes at least one character (patterns here are never empty), so
it never runs out. -/
def pyReplaceAux (pat repl : List Char) : Nat → List Char → List Char
  | 0, s => s
  | fuel + 1, s =>
    match s with
    | [] => []
    | c :: rest =>
      if pat.isPrefixOf (c :: rest) then
        repl ++ pyReplaceAux pat repl fuel ((c :: rest).drop pat.length)
      else c :: pyReplaceAux pat repl fuel rest

/-- Python `str.replace(pat, repl)`. -/
def pyReplace (s pat repl : String) : String :=
  String.mk (pyReplaceAux pat.data repl.data s.data.length s.data)

/-- Python `str.splitlines`, worker: accumulates the current line
reversed; the flag records whether the previous character was a carriage
return, so that the `\n` of a `\r\n` pair is swallowed. -/
def pySplitAux : List Char → Bool → List Char → List String
  | [], _, acc => if acc.isEmpty then [] else [String.mk acc.reverse]
  | c :: rest, lastCR, acc =>
    if lastCR && c = '\n' then pySplitAux rest false acc
    else if isLineBoundary c then String.mk acc.reverse :: pySplitAux rest (c = '\r') []
    else pySplitAux rest false (c :: acc)

/-- Python `str.splitlines`. -/
def pySplitlines (s : String) : List String := pySplitAux s.data false []

/-! ### Data model (lint.py dataclasses) -/

/-- A single lint violation (lint.py `Violation`). -/
structure Violation where
  file : String
  line : Nat
  rule : String
  message : String
  severity : String
deriving DecidableEq, Repr

/-- Aggregate statistics for a lint run (lint.py `LintStats`). -/
structure LintStats where
  files_checked : Nat
  files_passed : Nat
  violations : List Violation
  suppressed : Nat
deriving DecidableEq, Repr

/-- Derived statistic `LintStats.files_failed`. -/
def files_failed (s : LintStats) : Nat := s.files_checked - s.files_passed

/-- Lexicographic comparison of strings by code point, as Python `sorted` uses. -/
def strLe (a b : String) : Bool :=
  let rec go : List Char → List Char → Bool
    | [], _ => true
    | _ :: _, [] => false
    | c :: cs, d :: ds => if c = d then go cs ds else decide (c.val < d.val)
  go a.data b.data

/-- Insertion sort by a boolean comparison. -/
def insSort (le : α → α → Bool) : List α → List α
  | [] => []
  | x :: xs =>
    let rec ins (x : α) : List α → List α
      | [] => [x]
      | y :: ys => if le x y then x :: y :: ys else y :: ins x ys
    ins x (insSort le xs)

/-- `LintStats.rule_counts`: rule id → number of violations, sorted by rule id. -/
def rule_counts (s : LintStats) : List (String × Nat) :=
  (insSort strLe ((s.violations.map (fun v => v.rule)).dedup)).map
    (fun r => (r, s.violations.countP (fun v => v.rule = r)))

/-! ### Inline suppression marker

Pattern `_SUPPRESS_RE`: a comment prefix (double slash or hash), `\s*`,
`rt-lint:`, `\s*`, `suppress`, `\s+`, then a captured token of word
characters, dashes and slashes; used with `re.search`.
Every step after the comment prefix is
deterministic (each repetition is of a character class disjoint from
the literal that follows it), so the search reduces to scanning start
positions left to right. -/

/-- Try to match the suppression marker starting exactly at position `i`;
returns the captured rule token. -/
def suppressAt (s : List Char) (i : Nat) : Option String :=
  let afterCmt : Option Nat :=
    if ['/', '/'].isPrefixOf (s.drop i) then some (i + 2)
    else if ['#'].isPrefixOf (s.drop i) then some (i + 1)
    else none
  match afterCmt with
  | none => none
  | some p =>
    let p1 := p + ((s.drop p).takeWhile isRegexSpace).length
    if "rt-lint:".data.isPrefixOf (s.drop p1) then
      let p2 := p1 + 8
      let p3 := p2 + ((s.drop p2).takeWhile isRegexSpace).length
      if "suppress".data.isPrefixOf (s.drop p3) then
        let p4 := p3 + 8
        let wn := ((s.drop p4).takeWhile isRegexSpace).length
        if wn = 0 then none
        else
          let p5 := p4 + wn
          let tok := (s.drop p5).takeWhile (fun c => isWordCh c || c = '-' || c = '/')
          if tok.length = 0 then none else some (String.mk tok)
      else none
    else none

/-- `_SUPPRESS_RE.search(line)`: first position whose marker match succeeds. -/
def searchSuppress (line : String) : Option String :=
  (List.range (line.data.length + 1)).findSome? (fun i => suppressAt line.data i)

/-! ### Suppression configuration (lint.py `_load_file_suppressions`) -/

/-- Add one rule token to the suppression set of `p` (dict of sets semantics). -/
def addSupp : List (String × List String) → String → String → List (String × List String)
  | [], p, r => [(p, [r])]
  | (q, rs) :: rest, p, r =>
    if q = p then (q, if rs.contains r then rs else rs ++ [r]) :: rest
    else (q, rs) :: addSupp rest p r

/-- Add every non-empty stripped rule of the comma-split list to key `p`. -/
def addRules (m : List (String × List String)) (p : String) (rs : List String) :
    List (String × List String) :=
  rs.foldl (fun m r => let r2 := pyStrip r; if r2 = "" then m else addSupp m p r2) m

/-- Parser loop over the configuration lines, tracking the `[suppress]` section flag. -/
def confAux : List String → Bool → List (String × List String) → List (String × List String)
  | [], _, m => m
  | raw :: rest, inSupp, m =>
    let line := pyStrip raw
    if pyStartsWith line "[" && pyEndsWith line "]" then
      confAux rest (pyLower line = "[suppress]") m
    else if !inSupp || line = "" || pyStartsWith line "#" then confAux rest inSupp m
    else if line.data.contains '=' then
      let pathStr := pyStrip (String.mk (line.data.takeWhile (fun c => c ≠ '=')))
      let rulesStr := String.mk ((line.data.dropWhile (fun c => c ≠ '=')).drop 1)
      confAux rest inSupp (addRules m pathStr (splitOnComma rulesStr.data []))
    else confAux rest inSupp m

/-- lint.py `_load_file_suppressions`: `none` models a missing tools/lint.conf. -/
def load_file_suppressions (confText : Option String) : List (String × List String) :=
  match confText with
  | none => []
  | some text => confAux (pySplitlines text) false []

/-! ### A small backtracking regex engine

`_FUNC_DEF_RE` of lint.py combines greedy repetition over overlapping
character classes with ordered alternation, so its behaviour genuinely
depends on backtracking order.  `mmatch` enumerates the end positions a
pattern can reach from a start position, in exactly Python's priority
order (greedy repetitions longest first, alternatives left first); the
first full match found through these lists is the Python match. -/

/-- Pattern syntax: literals, single-character classes, sequencing,
ordered alternation, and greedy star. -/
inductive RPat where
  | lit : List Char → RPat
  | cls : (Char → Bool) → RPat
  | seq : RPat → RPat → RPat
  | alt : RPat → RPat → RPat
  | star : RPat → RPat

/-- Greedy star worker: end positions reachable by zero or more
progress-making iterations of `f`, longest continuations first.  The
fuel bounds the iteration count; each iteration consumes at least one
character, so `s.length + 1` fuel is always enough. -/
def starAux (f : Nat → List Nat) : Nat → Nat → List Nat
  | 0, pos => [pos]
  | fuel + 1, pos =>
    (((f pos).filter (fun e => pos < e)).flatMap (fun e => starAux f fuel e)) ++ [pos]

/-- End positions of a match of `p` at `pos` in `s`, in Python priority order. -/
def mmatch (s : List Char) : RPat → Nat → List Nat
  | .lit cs, pos => if cs.isPrefixOf (s.drop pos) then [pos + cs.length] else []
  | .cls f, pos =>
    match (s.drop pos).head? with
    | some c => if f c then [pos + 1] else []
    | none => []
  | .seq p q, pos => (mmatch s p pos).flatMap (fun e => mmatch s q e)
  | .alt p q, pos => mmatch s p pos ++ mmatch s q pos
  | .star p, pos => starAux (fun e => mmatch s p e) (s.length + 1) pos

/-- One-or-more repetition (greedy). -/
def plusP (p : RPat) : RPat := .seq p (.star p)

/-- Literal pattern from a string. -/
def litS (s : String) : RPat := .lit s.data

/-! ### `_FUNC_DEF_RE` (function-definition heuristic) -/

/-- The return-type character class of `_FUNC_DEF_RE`: word characters,
colon, star, ampersand, angle brackets, comma, whitespace. -/
def isRetTypeCh (c : Char) : Bool :=
  isWordCh c || c = ':' || c = '*' || c = '&' || c = '<' || c = '>' || c = ',' ||
  isRegexSpace c

/-- The function-name character class: word characters, colon, tilde. -/
def isFuncNameCh (c : Char) : Bool := isWordCh c || c = ':' || c = '~'

/-- Leading-qualifier alternation, in source order:
static, inline, virtual, constexpr, const, explicit. -/
def qualAlt : RPat :=
  .alt (litS "static") (.alt (litS "inline") (.alt (litS "virtual")
    (.alt (litS "constexpr") (.alt (litS "const") (litS "explicit")))))

/-- Whitespace star. -/
def wsStar : RPat := .star (.cls isRegexSpace)

/-- Whitespace plus. -/
def wsPlus : RPat := plusP (.cls isRegexSpace)

/-- Everything of `_FUNC_DEF_RE` before the captured name: leading
whitespace, the qualifier star, and the rough return type ending in
mandatory whitespace. -/
def funcPreP : RPat :=
  .seq wsStar (.seq (.star (.seq qualAlt wsPlus)) (.seq (plusP (.cls isRetTypeCh)) wsPlus))

/-- The captured function name. -/
def funcNameP : RPat := plusP (.cls isFuncNameCh)

/-- Trailing-qualifier star: `const`, `override`, `noexcept`, `final`,
each preceded by optional whitespace. -/
def trailQuals : RPat :=
  .star (.seq wsStar (.alt (litS "const") (.alt (litS "override")
    (.alt (litS "noexcept") (litS "final")))))

/-- Everything of `_FUNC_DEF_RE` after the captured name: the
parenthesised parameter list, trailing qualifiers, and the opening brace. -/
def funcPostP : RPat :=
  .seq wsStar (.seq (litS "(") (.seq (.star (.cls (fun c => c ≠ ')')))
    (.seq (litS ")") (.seq trailQuals (.seq wsStar (litS "\x7b"))))))

/-- The negative lookahead `.*;\s*$` of `_FUNC_DEF_RE`: true when the
last non-whitespace character of the line is a semicolon. -/
def endsWithSemi (s : List Char) : Bool :=
  (s.reverse.dropWhile isRegexSpace).head? = some ';'

/-- `_FUNC_DEF_RE.match(line)`: the captured group 1 (the function name)
of the highest-priority full match anchored at the line start, after
the two negative lookaheads (no trailing semicolon, no hash anywhere). -/
def matchFuncDef (line : String) : Option String :=
  let s := line.data
  if endsWithSemi s then none
  else if s.contains '#' then none
  else
    (mmatch s funcPreP 0).findSome? (fun a =>
      (mmatch s funcNameP a).findSome? (fun b =>
        if (mmatch s funcPostP b).isEmpty then none
        else some (String.mk ((s.drop a).take (b - a)))))

/-! ### tiger/assertion-density -/

/-- Assertion macro stems of `_ASSERT_RE`, in source order. -/
def assertMacros : List String :=
  ["RT_ASSERT", "RT_VERIFY", "RT_SLOW_ASSERT", "RT_UNREACHABLE"]

/-- `_ASSERT_RE.search(line)`: some position starts a word-boundary
occurrence of an assertion-macro stem (the trailing `\w*` of the
pattern always matches and does not affect the boolean result). -/
def assertSearch (line : String) : Bool :=
  (List.range (line.data.length + 1)).any (fun i =>
    (i == 0 || !isWordCh (line.data.getD (i - 1) ' ')) &&
    assertMacros.any (fun m => m.data.isPrefixOf (line.data.drop i)))

/-- Number of assertion-macro occurrences on a line (the quantity the
specification's density claim speaks about; the code itself only tests
`assertSearch` per line). -/
def assertOccurrences (line : String) : Nat :=
  (List.range (line.data.length + 1)).countP (fun i =>
    (i == 0 || !isWordCh (line.data.getD (i - 1) ' ')) &&
    assertMacros.any (fun m => m.data.isPrefixOf (line.data.drop i)))

/-- Total assertion-macro occurrences over body lines `a ≤ k < min b len`. -/
def assertOccurrencesInBody (lines : List String) (a b : Nat) : Nat :=
  ((List.range' a (min b lines.length - a)).map
    (fun k => assertOccurrences (lines.getD k ""))).sum

/-- Count of body lines `a ≤ k < min b len` on which `assertSearch` fires
(this is what `check_tiger_assertion_density` computes). -/
def countAssertLines (lines : List String) (a b : Nat) : Nat :=
  (List.range' a (min b lines.length - a)).countP (fun k => assertSearch (lines.getD k ""))

/-- Signed brace count of a whole line (the seeding scan over the
definition line). -/
def braceDelta (line : String) : Int :=
  line.data.foldl
    (fun d c => if c = '\x7b' then d + 1 else if c = '\x7d' then d - 1 else d) 0

/-- Brace scan of one body line: stops as soon as the depth reaches zero
(the `break` in the source), ignoring the rest of the line. -/
def scanBodyLine (depth : Nat) : List Char → Nat
  | [] => depth
  | c :: rest =>
    if depth = 0 then 0
    else if c = '\x7b' then scanBodyLine (depth + 1) rest
    else if c = '\x7d' then scanBodyLine (depth - 1) rest
    else scanBodyLine depth rest

/-- The body-scanning while loop, with an explicit iteration bound: the
loop advances `j` by one per iteration, so `lines.length - j` iterations
always reach the loop's own exit condition first. -/
def findBodyEndAux (lines : List String) : Nat → Nat → Nat → Nat
  | 0, _, j => j
  | fuel + 1, depth, j =>
    if j < lines.length ∧ 0 < depth then
      findBodyEndAux lines fuel (scanBodyLine depth (lines.getD j "").data) (j + 1)
    else j

/-- The body-scanning while loop: advances `j` while lines remain and the
depth is positive; returns the final `j` (`body_end`).  When the bound
runs out, `j` has reached `lines.length` and the loop condition is false
anyway, so this equals the unbounded loop. -/
def findBodyEnd (lines : List String) (depth j : Nat) : Nat :=
  findBodyEndAux lines (lines.length - j) depth j

/-- `body_end` never precedes `body_start`. -/
theorem findBodyEndAux_ge (lines : List String) (fuel : Nat) :
    ∀ depth j, j ≤ findBodyEndAux lines fuel depth j := by
  induction fuel with
  | zero => intro depth j; exact Nat.le_refl j
  | succ fuel ih =>
    intro depth j
    simp only [findBodyEndAux]
    split
    · exact Nat.le_trans (Nat.le_succ j) (ih _ (j + 1))
    · exact Nat.le_refl j

/-- `body_end` never precedes `body_start`. -/
theorem findBodyEnd_ge (lines : List String) (depth j : Nat) :
    j ≤ findBodyEnd lines depth j :=
  findBodyEndAux_ge lines (lines.length - j) depth j

/-- The reserved keywords `_CPP_KEYWORDS` of lint.py. -/
def cppKeywords : List String :=
  ["if", "else", "for", "while", "do", "switch", "case", "default",
   "return", "break", "continue", "goto", "catch", "throw", "try",
   "new", "delete", "sizeof", "alignof", "decltype", "typeid",
   "static_assert", "static_cast", "dynamic_cast", "const_cast",
   "reinterpret_cast", "co_await", "co_return", "co_yield"]

/-- The `_TRIVIAL_PREFIXES` tuple of lint.py. -/
def trivialNameStarts : List String :=
  ["get_", "set_", "is_", "has_", "_bind_methods", "operator", "_notification"]

/-- `func_name.split("::")[-1]`. -/
def unqualifiedName (nm : String) : String := (splitDoubleColon nm.data []).getLastD nm

/-- The density-violation record appended by `check_tiger_assertion_density`. -/
def densityViolation (path : String) (i : Nat) (nm : String) (cnt bodyLines : Nat) :
    Violation :=
  ⟨path, i + 1, "tiger/assertion-density",
   "Function \x27" ++ nm ++ "\x27 has " ++ toString cnt ++
     " assertion(s), need ≥2 (body is " ++ toString bodyLines ++ " lines)",
   "warning"⟩

/-- The main while loop of `check_tiger_assertion_density`, starting at
line index `i`. -/
def tigerScan (path : String) (lines : List String) (i : Nat) : List Violation :=
  if hi : i < lines.length then
    match matchFuncDef (lines.getD i "") with
    | none => tigerScan path lines (i + 1)
    | some nm =>
      if unqualifiedName nm ∈ cppKeywords then tigerScan path lines (i + 1)
      else if trivialNameStarts.any (fun p => pyStartsWith (unqualifiedName nm) p) then
        tigerScan path lines (i + 1)
      else if braceDelta (lines.getD i "") ≤ 0 then tigerScan path lines (i + 1)
      else
        if findBodyEnd lines (braceDelta (lines.getD i "")).toNat (i + 1) - (i + 1) < 5 then
          tigerScan path lines (findBodyEnd lines (braceDelta (lines.getD i "")).toNat (i + 1))
        else
          if countAssertLines lines (i + 1)
              (findBodyEnd lines (braceDelta (lines.getD i "")).toNat (i + 1)) < 2 then
            densityViolation path i nm
              (countAssertLines lines (i + 1)
                (findBodyEnd lines (braceDelta (lines.getD i "")).toNat (i + 1)))
              (findBodyEnd lines (braceDelta (lines.getD i "")).toNat (i + 1) - (i + 1)) ::
            tigerScan path lines (findBodyEnd lines (braceDelta (lines.getD i "")).toNat (i + 1))
          else
            tigerScan path lines (findBodyEnd lines (braceDelta (lines.getD i "")).toNat (i + 1))
  else []
termination_by lines.length - i
decreasing_by
  all_goals first
    | omega
    | (have h := findBodyEnd_ge lines (braceDelta (lines.getD i "")).toNat (i + 1); omega)

/-- lint.py `check_tiger_assertion_density`. -/
def check_tiger_assertion_density (path : String) (lines : List String) : List Violation :=
  if pyEndsWith path ".h" || pyEndsWith path ".cpp" then tigerScan path lines 0 else []

/-! ### header/ checks -/

/-- `Path(path).name` for the forward-slash-normalised relative paths the
checks receive. -/
def basenameOf (path : String) : String := (splitOnSlash path.data []).getLastD path

/-- lint.py `check_header_pragma_once`. -/
def check_header_pragma_once (path : String) (lines : List String) : List Violation :=
  if !pyEndsWith path ".h" then []
  else if lines.isEmpty || pyStrip (lines.getD 0 "") ≠ "#pragma once" then
    [⟨path, 1, "header/pragma-once", "Header must start with \x27#pragma once\x27", "error"⟩]
  else []

/-- lint.py `check_header_description`. -/
def check_header_description (path : String) (lines : List String) : List Violation :=
  if !pyEndsWith path ".h" then []
  else if lines.length < 2 then
    [⟨path, 2, "header/description", "Missing file description on line 2", "error"⟩]
  else
    if !(pyStartsWith (pyStrip (lines.getD 1 "")) ("// " ++ basenameOf path) ||
         pyStartsWith (pyStrip (lines.getD 1 ""))
           ("// " ++ pyReplace (basenameOf path) ".h" "")) then
      [⟨path, 2, "header/description",
        "Line 2 should be \x27// " ++ basenameOf path ++ " — description\x27", "error"⟩]
    else []

/-! ### gpu/static-assert

`_GPU_STRUCT_DEF_RE`: word boundary, `struct`, `\s+`, the captured name
(`GPU`, one or more word characters, `Packed`), word boundary, any run
of non-semicolon characters, opening brace.  All repetition here is
over classes disjoint from what follows, except the final brace, which
greedy backtracking places at the LAST brace inside the non-semicolon
run. -/

/-- Index of the last opening brace in a character list. -/
def lastBraceIdx (l : List Char) : Option Nat :=
  match l.reverse.findIdx? (fun c => c = '\x7b') with
  | some r => some (l.length - 1 - r)
  | none => none

/-- Try `_GPU_STRUCT_DEF_RE` at position `pos` of the full text; returns
the captured struct name and the match end. -/
def gpuMatchAt (s : List Char) (pos : Nat) : Option (String × Nat) :=
  if (pos == 0 || !isWordCh (s.getD (pos - 1) ' ')) &&
     "struct".data.isPrefixOf (s.drop pos) then
    let p1 := pos + 6
    let wsn := ((s.drop p1).takeWhile isRegexSpace).length
    if wsn = 0 then none
    else
      let p2 := p1 + wsn
      if "GPU".data.isPrefixOf (s.drop p2) then
        let runW := (s.drop (p2 + 3)).takeWhile isWordCh
        if 7 ≤ runW.length ∧ "Packed".data.isSuffixOf runW then
          let nameEnd := p2 + 3 + runW.length
          match lastBraceIdx ((s.drop nameEnd).takeWhile (fun c => c ≠ ';')) with
          | some k => some (String.mk ("GPU".data ++ runW), nameEnd + k + 1)
          | none => none
        else none
      else none
  else none

/-- `finditer` worker: scan start positions left to right, resuming after
each match end. -/
def gpuFindAux (s : List Char) : Nat → Nat → List (Nat × String)
  | _, 0 => []
  | pos, fuel + 1 =>
    if pos < s.length then
      match gpuMatchAt s pos with
      | some (nm, e) => (pos, nm) :: gpuFindAux s e fuel
      | none => gpuFindAux s (pos + 1) fuel
    else []

/-- `_GPU_STRUCT_DEF_RE.finditer(full_text)`: list of (start, captured name). -/
def gpuFinditer (s : List Char) : List (Nat × String) := gpuFindAux s 0 (s.length + 1)

/-- `"\n".join(lines)`, the `full_text` the gpu check works on. -/
def joinLines : List String → String
  | [] => ""
  | l :: rest =>
    match rest with
    | [] => l
    | _ :: _ => l ++ "\n" ++ joinLines rest

/-- lint.py `check_gpu_static_assert`. -/
def check_gpu_static_assert (path : String) (lines : List String) : List Violation :=
  if !(pyEndsWith path ".h" || pyEndsWith path ".cpp") then []
  else
    (gpuFinditer (joinLines lines).data).filterMap (fun m =>
      if containsSub (joinLines lines).data
          ("static_assert(sizeof(" ++ m.2 ++ ")").data then none
      else some ⟨path, ((joinLines lines).data.take m.1).count '\n' + 1,
        "gpu/static-assert",
        "GPU struct \x27" ++ m.2 ++ "\x27 needs static_assert(sizeof(...))", "error"⟩)

/-! ### module/boundary -/

/-- Search one forbidden-include pattern: `#include`, `\s*`, then the
literal needle (the needle starts with a quote, never whitespace, so the
greedy whitespace skip is deterministic). -/
def includeSearch (needle : String) (line : String) : Bool :=
  (List.range (line.data.length + 1)).any (fun i =>
    "#include".data.isPrefixOf (line.data.drop i) &&
    needle.data.isPrefixOf ((line.data.drop (i + 8)).dropWhile isRegexSpace))

/-- The `_FORBIDDEN_INCLUDES` table: module path prefix → literal needles
of the four compiled patterns. -/
def forbiddenIncludes : List (String × List String) :=
  [("modules/",
    ["\"godot/", "\"raytracer_server.h\"", "\"dispatch/thread_pool.h\"", "\"accel/"])]

/-- lint.py `check_module_boundary`. -/
def check_module_boundary (path : String) (lines : List String) : List Violation :=
  if !(pyEndsWith path ".h" || pyEndsWith path ".cpp") then []
  else
    forbiddenIncludes.flatMap (fun entry =>
      if !containsSub (pyReplace path "\\" "/").data entry.1.data then []
      else
        lines.enum.flatMap (fun il =>
          entry.2.filterMap (fun nd =>
            if includeSearch nd il.2 then
              some ⟨path, il.1 + 1, "module/boundary",
                "Module file must not include internal header: " ++ pyStrip il.2, "error"⟩
            else none)))

/-! ### naming/class-pascal -/

/-- `_CLASS_DECL_RE.match(line)`: optional whitespace, `class` or
`struct`, mandatory whitespace, the captured word-character name,
optional whitespace, then a colon or opening brace.  The two keyword
literals differ in their first character and every repetition is over a
class disjoint from its continuation, so matching is deterministic. -/
def classDeclMatch (line : String) : Option String :=
  let s1 := line.data.dropWhile isRegexSpace
  let afterKw : Option (List Char) :=
    if "class".data.isPrefixOf s1 then some (s1.drop 5)
    else if "struct".data.isPrefixOf s1 then some (s1.drop 6)
    else none
  match afterKw with
  | none => none
  | some s2 =>
    let wsn := (s2.takeWhile isRegexSpace).length
    if wsn = 0 then none
    else
      let nm := (s2.drop wsn).takeWhile isWordCh
      if nm.length = 0 then none
      else
        match ((s2.drop wsn).drop nm.length).dropWhile isRegexSpace with
        | [] => none
        | c :: _ => if c = ':' || c = '\x7b' then some (String.mk nm) else none

/-- `_PASCAL_RE.match(name)`: uppercase letter then alphanumerics only. -/
def isPascal (name : String) : Bool :=
  match name.data with
  | [] => false
  | c :: cs => c.isUpper && cs.all (fun d => d.isAlphanum)

/-- The `_NAMING_EXEMPT` set of lint.py. -/
def namingExempt : List String := ["GDCLASS", "VARIANT_ENUM_CAST"]

/-- The per-line body of `check_naming_class_pascal`'s loop. -/
def stepNaming (path : String) (i : Nat) (line : String) : List Violation :=
  match classDeclMatch line with
  | none => []
  | some nm =>
    if pyStartsWith nm "_" || nm ∈ namingExempt then []
    else if isPascal nm then []
    else
      [⟨path, i + 1, "naming/class-pascal",
        "Class/struct \x27" ++ nm ++ "\x27 should be PascalCase", "error"⟩]

/-- lint.py `check_naming_class_pascal`. -/
def check_naming_class_pascal (path : String) (lines : List String) : List Violation :=
  if !pyEndsWith path ".h" then []
  else lines.enum.flatMap (fun il => stepNaming path il.1 il.2)

/-! ### godot-native/ checks -/

/-- `re.match(r"\s*(?:struct|class)\s+(\w+)", line)` used by the scope
tracker of `check_godot_native_cpp` (keyword order: struct first). -/
def structScopeMatch (line : String) : Option String :=
  let s1 := line.data.dropWhile isRegexSpace
  let afterKw : Option (List Char) :=
    if "struct".data.isPrefixOf s1 then some (s1.drop 6)
    else if "class".data.isPrefixOf s1 then some (s1.drop 5)
    else none
  match afterKw with
  | none => none
  | some s2 =>
    let wsn := (s2.takeWhile isRegexSpace).length
    if wsn = 0 then none
    else
      let nm := (s2.drop wsn).takeWhile isWordCh
      if nm.length = 0 then none else some (String.mk nm)

/-- Word-boundary occurrence of `n` starting at `i` in `s` (the shape of
every `_GODOT_OWNED_MEMBERS` pattern). -/
def wordAtPos (n s : List Char) (i : Nat) : Bool :=
  n.isPrefixOf (s.drop i) &&
  (i == 0 || !isWordCh (s.getD (i - 1) ' ')) &&
  (match (s.drop (i + n.length)).head? with
   | none => true
   | some c => !isWordCh c)

/-- Word-boundary search for `n` at any position `≥ lo`. -/
def wordSearchGe (n s : List Char) (lo : Nat) : Bool :=
  (List.range (s.length + 1)).any (fun i => lo ≤ i && wordAtPos n s i)

/-- Word-boundary search anywhere in the line. -/
def wordSearch (nm : String) (line : String) : Bool := wordSearchGe nm.data line.data 0

/-- The `_GODOT_OWNED_MEMBERS` table: member name (pattern with the word
boundaries removed, as the message construction does), owning node type,
read path. -/
def godotOwnedMembers : List (String × String × String) :=
  [("sun_direction_", "DirectionalLight3D", "-transform.basis.get_column(2)"),
   ("sun_color_", "DirectionalLight3D", "get_color()"),
   ("sun_energy_", "DirectionalLight3D", "get_param(PARAM_ENERGY)"),
   ("sun_rotation_degrees_", "DirectionalLight3D", "rotation_degrees"),
   ("sun_shadows_", "DirectionalLight3D", "shadow_enabled"),
   ("sun_shadow_cascades_", "DirectionalLight3D", "directional_shadow_max_distance"),
   ("sun_shadow_max_distance_", "DirectionalLight3D", "directional_shadow_max_distance"),
   ("sky_top_color_", "ProceduralSkyMaterial", "sky_top_color"),
   ("sky_horizon_color_", "ProceduralSkyMaterial", "sky_horizon_color"),
   ("sky_bottom_color_", "ProceduralSkyMaterial", "ground_bottom_color"),
   ("sky_energy_", "Sky / Environment", "sky.sky_material.energy_multiplier"),
   ("ambient_color_", "Environment", "ambient_light_color"),
   ("ambient_energy_", "Environment", "ambient_light_energy"),
   ("tonemap_mode_", "Environment", "tonemap_mode"),
   ("tonemap_exposure_", "Environment", "tonemap_exposure"),
   ("tonemap_white_", "Environment", "tonemap_white"),
   ("ssr_enabled_", "Environment", "ssr_enabled"),
   ("ssr_max_steps_", "Environment", "ssr_max_steps"),
   ("ssr_fade_in_", "Environment", "ssr_fade_in"),
   ("ssr_fade_out_", "Environment", "ssr_fade_out"),
   ("ssr_depth_tolerance_", "Environment", "ssr_depth_tolerance"),
   ("ssao_enabled_", "Environment", "ssao_enabled"),
   ("ssao_radius_", "Environment", "ssao_radius"),
   ("ssao_intensity_", "Environment", "ssao_intensity"),
   ("ssil_enabled_", "Environment", "ssil_enabled"),
   ("ssil_radius_", "Environment", "ssil_radius"),
   ("ssil_intensity_", "Environment", "ssil_intensity"),
   ("glow_enabled_", "Environment", "glow_enabled"),
   ("glow_intensity_", "Environment", "glow_intensity"),
   ("glow_bloom_", "Environment", "glow_bloom"),
   ("fog_enabled_", "Environment", "fog_enabled"),
   ("fog_density_", "Environment", "fog_density"),
   ("fog_color_", "Environment", "fog_aerial_perspective"),
   ("dof_enabled_", "CameraAttributesPractical", "dof_blur_far_enabled"),
   ("dof_focus_distance_", "CameraAttributesPractical", "dof_blur_far_distance"),
   ("dof_blur_amount_", "CameraAttributesPractical", "dof_blur_amount"),
   ("auto_exposure_enabled_", "CameraAttributesPractical", "auto_exposure_enabled"),
   ("auto_exposure_scale_", "CameraAttributesPractical", "auto_exposure_scale"),
   ("auto_exposure_min_", "CameraAttributesPractical", "auto_exposure_min_sensitivity"),
   ("auto_exposure_max_", "CameraAttributesPractical", "auto_exposure_max_sensitivity"),
   ("gi_mode_", "Environment", "gi_mode (sdfgi/voxel_gi)"),
   ("sdfgi_cascades_", "Environment", "sdfgi_cascades"),
   ("sdfgi_min_cell_size_", "Environment", "sdfgi_min_cell_size"),
   ("sdfgi_use_occlusion_", "Environment", "sdfgi_use_occlusion"),
   ("depth_range_", "Camera3D", "get_far() - get_near()"),
   ("camera_fov_", "Camera3D", "get_fov()"),
   ("camera_near_", "Camera3D", "get_near()"),
   ("camera_far_", "Camera3D", "get_far()")]

/-- The `_DATA_TRANSFER_STRUCTS` exemption set. -/
def dataTransferStructs : List String :=
  ["EnvironmentData", "LightData", "SceneShadeData", "GPURayPacked",
   "GPUTrianglePacked", "GPUBVHNodePacked", "GPUHitResultPacked",
   "GPUMaterialPacked", "GPULightPacked"]

/-- First `_HARDCODED_SCENE_PATTERNS` test (IGNORECASE): word-bounded
`constexpr`, anything, then a word-bounded sky or sun constant name. -/
def hardcodedSkySun (line : String) : Bool :=
  let l := line.data.map Char.toLower
  (List.range (l.length + 1)).any (fun i =>
    wordAtPos "constexpr".data l i &&
    ["sky_zenith", "sky_horizon", "sky_ground", "sun_dir", "sun_color"].any
      (fun nm => wordSearchGe nm.data l (i + 9)))

/-- Second `_HARDCODED_SCENE_PATTERNS` test (IGNORECASE): word-bounded
`static`, `\s+`, `const` or `constexpr` (longer branch first), `\s+`,
anything, then a word-bounded ambient constant name. -/
def hardcodedAmbient (line : String) : Bool :=
  let l := line.data.map Char.toLower
  (List.range (l.length + 1)).any (fun i =>
    ("static".data.isPrefixOf (l.drop i) &&
     (i == 0 || !isWordCh (l.getD (i - 1) ' '))) &&
    (let wsn := ((l.drop (i + 6)).takeWhile isRegexSpace).length
     if wsn = 0 then false
     else
       let p := i + 6 + wsn
       let tryConst := fun (q : Nat) =>
         match (l.drop q).head? with
         | some c =>
           isRegexSpace c &&
           ["ambient_color", "ambient_energy"].any (fun nm => wordSearchGe nm.data l (q + 1))
         | none => false
       (if "constexpr".data.isPrefixOf (l.drop p) then tryConst (p + 9) else false) ||
       (if "const".data.isPrefixOf (l.drop p) then tryConst (p + 5) else false)))

/-- Third `_HARDCODED_SCENE_PATTERNS` test (IGNORECASE): word-bounded
`constexpr`, anything, word-bounded `depth_range`. -/
def hardcodedDepth (line : String) : Bool :=
  let l := line.data.map Char.toLower
  (List.range (l.length + 1)).any (fun i =>
    wordAtPos "constexpr".data l i && wordSearchGe "depth_range".data l (i + 9))

/-- The `_HARDCODED_SCENE_PATTERNS` table as (test, message) pairs. -/
def hardcodedScenePatterns : List ((String → Bool) × String) :=
  [(hardcodedSkySun, "Sky/sun constants should be read from scene nodes, not hardcoded"),
   (hardcodedAmbient, "Ambient constants should be read from Environment node"),
   (hardcodedDepth, "Depth range should be read from Camera3D (get_far() - get_near())")]

/-- Violations contributed by one non-exempt, non-comment line of
`check_godot_native_cpp`: hardcoded-constant hits first, then
parallel-state member hits (only on declaration-like lines). -/
def gnLine (path : String) (i : Nat) (line : String) : List Violation :=
  (hardcodedScenePatterns.filterMap (fun pm =>
    if pm.1 line then
      some ⟨path, i + 1, "godot-native/hardcoded-scene-val", pm.2, "error"⟩
    else none)) ++
  (if line.data.contains '_' && (line.data.contains ';' || line.data.contains '=') then
    godotOwnedMembers.filterMap (fun t =>
      if wordSearch t.1 line then
        some ⟨path, i + 1, "godot-native/parallel-state-cpp",
          "Member \x27" ++ t.1 ++ "\x27 duplicates " ++ t.2.1 ++
            " state. Read from " ++ t.2.1 ++ "." ++ t.2.2 ++ " instead.",
          "warning"⟩
      else none)
   else [])

/-- The per-line loop of `check_godot_native_cpp`, threading the current
struct name and brace depth. -/
def gnAux (path : String) : List (Nat × String) → Option String → Int → List Violation
  | [], _, _ => []
  | (i, line) :: rest, cur, depth =>
    let cur1 : Option String :=
      match structScopeMatch line with
      | some nm => some nm
      | none => cur
    let d1 : Int :=
      (match structScopeMatch line with
       | some _ => 0
       | none => depth) + braceDelta line
    let cur2 : Option String := if d1 ≤ 0 then none else cur1
    let d2 : Int := if d1 ≤ 0 then 0 else d1
    let here : List Violation :=
      match cur2 with
      | some nm =>
        if nm ∈ dataTransferStructs then []
        else if pyStartsWith (pyStrip line) "//" || pyStartsWith (pyStrip line) "/*" ||
                pyStartsWith (pyStrip line) "*" then []
        else gnLine path i line
      | none =>
        if pyStartsWith (pyStrip line) "//" || pyStartsWith (pyStrip line) "/*" ||
           pyStartsWith (pyStrip line) "*" then []
        else gnLine path i line
    here ++ gnAux path rest cur2 d2

/-- lint.py `check_godot_native_cpp`. -/
def check_godot_native_cpp (path : String) (lines : List String) : List Violation :=
  if !(pyEndsWith path ".h" || pyEndsWith path ".cpp") then []
  else gnAux path lines.enum none 0

/-! ### Rule registry and engine -/

/-- The static `RULE_CHECKS` registry, families in source (insertion) order. -/
def RULE_CHECKS : List (String × List (String → List String → List Violation)) :=
  [("header", [check_header_pragma_once, check_header_description]),
   ("tiger", [check_tiger_assertion_density]),
   ("gpu", [check_gpu_static_assert]),
   ("module", [check_module_boundary]),
   ("naming", [check_naming_class_pascal]),
   ("godot-native", [check_godot_native_cpp])]

/-- The concatenated raw violation list `lint_file` iterates over:
families passing the filter, checks in registry order. -/
def rawViolations (relPath : String) (lines : List String) (ruleFilter : Option String) :
    List Violation :=
  RULE_CHECKS.flatMap (fun fc =>
    if (match ruleFilter with
        | some f => pyStartsWith fc.1 f
        | none => true) then
      fc.2.flatMap (fun check => check relPath lines)
    else [])

/-- The inline-suppression dictionary built by `lint_file`: each marker on
0-based line `i` records its rule at keys `i` and `i + 1` (keys are
integers, as in Python, so the later lookup at `line - 1` is exact). -/
def inlineSuppressions (lines : List String) : List (Int × String) :=
  lines.enum.flatMap (fun il =>
    match searchSuppress il.2 with
    | some r => [((il.1 : Int), r), ((il.1 : Int) + 1, r)]
    | none => [])

/-- All rules recorded at one key of the inline-suppression dictionary. -/
def inlineAt (supps : List (Int × String)) (idx : Int) : List String :=
  supps.filterMap (fun p => if p.1 = idx then some p.2 else none)

/-- `rule.split("/")[0]`: the family component before the first slash. -/
def familyOf (rule : String) : String :=
  String.mk (rule.data.takeWhile (fun c => c ≠ '/'))

/-- The suppression test of `lint_file`: exact rule or family component,
against the inline set keyed `v.line - 1` or the file-level set. -/
def suppressedP (inline : List (Int × String)) (fileRules : List String)
    (v : Violation) : Bool :=
  decide (v.rule ∈ inlineAt inline ((v.line : Int) - 1) ∨
          familyOf v.rule ∈ inlineAt inline ((v.line : Int) - 1) ∨
          v.rule ∈ fileRules ∨
          familyOf v.rule ∈ fileRules)

/-- The suppression loop of `lint_file`: keep unsuppressed violations in
order, count suppressed ones. -/
def resolveSuppression (raw : List Violation) (inline : List (Int × String))
    (fileRules : List String) : List Violation × Nat :=
  raw.foldl
    (fun acc v =>
      if suppressedP inline fileRules v then (acc.1, acc.2 + 1)
      else (acc.1 ++ [v], acc.2))
    ([], 0)

/-- lint.py `lint_file`.  The file's bytes arrive as an `Except`; the
`.error` case models an OSError or UnicodeDecodeError from `read_text`. -/
def lint_file (readResult : Except Unit String) (relPath : String)
    (ruleFilter : Option String) (fileSuppressions : List (String × List String)) :
    List Violation × Nat :=
  match readResult with
  | .error _ => ([], 0)
  | .ok text =>
    resolveSuppression (rawViolations relPath (pySplitlines text) ruleFilter)
      (inlineSuppressions (pySplitlines text))
      ((fileSuppressions.lookup relPath).getD [])

/-- One iteration of `run_lint`'s loop: lint one file, update the stats. -/
def lintStep (ruleFilter : Option String) (confText : Option String)
    (stats : LintStats) (pf : String × Except Unit String) : LintStats :=
  { files_checked := stats.files_checked + 1,
    files_passed := stats.files_passed +
      (if (lint_file pf.2 pf.1 ruleFilter (load_file_suppressions confText)).1.isEmpty
       then 1 else 0),
    violations := stats.violations ++
      (lint_file pf.2 pf.1 ruleFilter (load_file_suppressions confText)).1,
    suppressed := stats.suppressed +
      (lint_file pf.2 pf.1 ruleFilter (load_file_suppressions confText)).2 }

/-- lint.py `run_lint`: fold over the file list, accumulating statistics.
Each file is its project-relative path plus the outcome of reading it. -/
def run_lint (files : List (String × Except Unit String)) (ruleFilter : Option String)
    (confText : Option String) : LintStats :=
  files.foldl (lintStep ruleFilter confText) ⟨0, 0, [], 0⟩

/-! ### Lemmas about the suppression resolver -/

/-- Membership in one key of the inline-suppression dictionary is exactly
membership of the pair in the underlying association list. -/
theorem mem_inlineAt (supps : List (Int × String)) (idx : Int) (r : String) :
    r ∈ inlineAt supps idx ↔ (idx, r) ∈ supps := by
  simp only [inlineAt, List.mem_filterMap]
  constructor
  · rintro ⟨⟨a, b⟩, hm, hf⟩
    by_cases h : a = idx
    · subst h
      rw [if_pos rfl] at hf
      obtain rfl : b = r := Option.some.inj hf
      exact hm
    · rw [if_neg (by simpa using h)] at hf
      exact absurd hf (by simp)
  · intro hm
    exact ⟨(idx, r), hm, by simp⟩

/-- The inline-suppression dictionary holds `(idx, r)` exactly when some
line `j` carries a marker for `r` and `idx` is `j` or `j + 1`. -/
theorem mem_inlineSuppressions (lines : List String) (idx : Int) (r : String) :
    (idx, r) ∈ inlineSuppressions lines ↔
      ∃ j, j < lines.length ∧ searchSuppress (lines.getD j "") = some r ∧
        (idx = (j : Int) ∨ idx = (j : Int) + 1) := by
  simp only [inlineSuppressions, List.mem_flatMap]
  constructor
  · rintro ⟨⟨j, line⟩, hm, hin⟩
    have hget : lines[j]? = some line := List.mk_mem_enum_iff_getElem?.mp hm
    have hj : j < lines.length := (List.getElem?_eq_some.mp hget).1
    have hline : lines.getD j "" = line := by
      rw [List.getD_eq_getElem?_getD, hget]
      rfl
    refine ⟨j, hj, ?_⟩
    rcases hs : searchSuppress line with _ | r2
    · simp only [hs] at hin
      exact absurd hin (List.not_mem_nil _)
    · simp only [hs, List.mem_cons, Prod.mk.injEq, List.not_mem_nil, or_false] at hin
      rcases hin with ⟨h1, h2⟩ | ⟨h1, h2⟩
      · subst h2; subst h1
        exact ⟨by rw [hline]; exact hs, Or.inl rfl⟩
      · subst h2; subst h1
        exact ⟨by rw [hline]; exact hs, Or.inr rfl⟩
  · rintro ⟨j, hj, hs, hidx⟩
    have hline : lines.getD j "" = lines[j] := by
      rw [List.getD_eq_getElem?_getD, List.getElem?_eq_getElem hj]
      simp
    refine ⟨(j, lines[j]), ?_, ?_⟩
    · exact List.mk_mem_enum_iff_getElem?.mpr (List.getElem?_eq_getElem hj)
    · rw [hline] at hs
      rw [hs]
      rcases hidx with h | h <;> subst h <;> simp

/-- The suppression loop equals filtering by the suppression test and
counting its hits. -/
theorem resolveSuppression_eq (raw : List Violation) (inline : List (Int × String))
    (fileRules : List String) :
    resolveSuppression raw inline fileRules =
      (raw.filter (fun v => !suppressedP inline fileRules v),
       raw.countP (suppressedP inline fileRules)) := by
  have aux : ∀ (l : List Violation) (acc : List Violation × Nat),
      l.foldl
        (fun acc v =>
          if suppressedP inline fileRules v then (acc.1, acc.2 + 1)
          else (acc.1 ++ [v], acc.2))
        acc =
      (acc.1 ++ l.filter (fun v => !suppressedP inline fileRules v),
       acc.2 + l.countP (suppressedP inline fileRules)) := by
    intro l
    induction l with
    | nil => intro acc; simp
    | cons v vs ih =>
      intro acc
      simp only [List.foldl_cons, List.filter_cons, List.countP_cons]
      by_cases hv : suppressedP inline fileRules v = true
      · rw [if_pos hv, ih]
        simp [hv]
        omega
      · rw [if_neg hv, ih]
        simp [hv]
  show raw.foldl _ ([], 0) = _
  rw [aux raw ([], 0)]
  simp

/-- Filtered-out and kept violations partition the raw list. -/
theorem filter_countP_partition (raw : List Violation) (p : Violation → Bool) :
    (raw.filter (fun v => !p v)).length + raw.countP p = raw.length := by
  induction raw with
  | nil => simp
  | cons v vs ih =>
    by_cases h : p v = true <;>
      simp [List.filter_cons, List.countP_cons, h] <;> omega

/-- The family component of `f ++ "/" ++ rest` is `f` when `f` is slash-free. -/
theorem familyOf_append (f rest : String) (hf : '/' ∉ f.data) :
    familyOf (f ++ "/" ++ rest) = f := by
  have hdata : (f ++ "/" ++ rest).data = f.data ++ '/' :: rest.data := by
    rw [String.data_append, String.data_append]
    show (f.data ++ ['/']) ++ rest.data = _
    simp
  have htw : ∀ (l : List Char), (∀ c ∈ l, c ≠ '/') →
      (l ++ '/' :: rest.data).takeWhile (fun c => decide (c ≠ '/')) = l := by
    intro l hl
    induction l with
    | nil => simp
    | cons c cs ih =>
      simp only [List.cons_append, List.takeWhile_cons]
      rw [if_pos (by simpa using hl c (List.mem_cons_self c cs))]
      rw [ih (fun d hd => hl d (List.mem_cons_of_mem c hd))]
  unfold familyOf
  rw [hdata, htw f.data (fun c hc => by rintro rfl; exact hf hc)]

/-! ### Claim C1: inline suppression window -/

/-- C1: when the only inline suppression marker of a file sits on 0-based
line index `m` (1-based line `m + 1`) carrying token `r`, a violation is
inline-suppressed exactly when its rule or family matches `r` and its
1-based line is `m + 1` or `m + 2` — the marker's own line and the next
line, and no other line of the file. -/
theorem c1_inline_marker_window (lines : List String) (m : Nat) (r : String) (v : Violation)
    (hm : m < lines.length)
    (hmark : searchSuppress (lines.getD m "") = some r)
    (honly : ∀ j, j < lines.length → j ≠ m → searchSuppress (lines.getD j "") = none) :
    suppressedP (inlineSuppressions lines) [] v = true ↔
      ((v.rule = r ∨ familyOf v.rule = r) ∧ (v.line = m + 1 ∨ v.line = m + 2)) := by
  have key : ∀ r' : String,
      r' ∈ inlineAt (inlineSuppressions lines) ((v.line : Int) - 1) ↔
        (r' = r ∧ (((v.line : Int) - 1 = (m : Int)) ∨ ((v.line : Int) - 1 = (m : Int) + 1))) := by
    intro r'
    rw [mem_inlineAt, mem_inlineSuppressions]
    constructor
    · rintro ⟨j, hj, hsj, hidx⟩
      by_cases hjm : j = m
      · subst hjm
        rw [hmark] at hsj
        exact ⟨(Option.some.inj hsj).symm, hidx⟩
      · rw [honly j hj hjm] at hsj
        exact absurd hsj (by simp)
    · rintro ⟨rfl, h⟩
      exact ⟨m, hm, hmark, h⟩
  have hline : (((v.line : Int) - 1 = (m : Int)) ∨ ((v.line : Int) - 1 = (m : Int) + 1)) ↔
      (v.line = m + 1 ∨ v.line = m + 2) := by omega
  simp only [suppressedP, decide_eq_true_eq, List.not_mem_nil, or_false]
  rw [key, key, hline]
  tauto

/-- C1 witness: a marker `header/pragma-once` on 1-based line 2 suppresses
a matching violation on line 2 (and no hypothesis of the theorem is vacuous). -/
theorem c1_inline_marker_window_witness :
    suppressedP (inlineSuppressions ["x", "// rt-lint: suppress header/pragma-once"]) []
      ⟨"src/a.h", 2, "header/pragma-once", "m", "error"⟩ = true :=
  (c1_inline_marker_window ["x", "// rt-lint: suppress header/pragma-once"] 1
      "header/pragma-once" ⟨"src/a.h", 2, "header/pragma-once", "m", "error"⟩
      (by decide) (by decide)
      (by decide)).mpr
    (by decide)

/-! ### Claim C2: suppression resolution -/

/-- C2: `lint_file` resolves the raw violation list with `resolveSuppression`;
a violation is suppressed exactly when its rule id or its family component
is in the inline set keyed to its line or in the file-level set; the kept
list is the filter of the unsuppressed, the counter counts the suppressed,
the two sum to the raw count (so each suppressed violation is removed and
counted exactly once); and a slash-free family name in the file-level set
suppresses every violation whose rule id starts with that family prefix. -/
theorem c2_suppression_resolution (raw : List Violation) (inline : List (Int × String))
    (fileRules : List String) (text relPath : String) (rf : Option String)
    (fsupp : List (String × List String)) :
    (lint_file (Except.ok text) relPath rf fsupp =
       resolveSuppression (rawViolations relPath (pySplitlines text) rf)
         (inlineSuppressions (pySplitlines text)) ((fsupp.lookup relPath).getD []))
  ∧ resolveSuppression raw inline fileRules =
      (raw.filter (fun v => !suppressedP inline fileRules v),
       raw.countP (suppressedP inline fileRules))
  ∧ (∀ v : Violation, suppressedP inline fileRules v = true ↔
       (v.rule ∈ inlineAt inline ((v.line : Int) - 1) ∨
        familyOf v.rule ∈ inlineAt inline ((v.line : Int) - 1) ∨
        v.rule ∈ fileRules ∨ familyOf v.rule ∈ fileRules))
  ∧ ((raw.filter (fun v => !suppressedP inline fileRules v)).length +
       raw.countP (suppressedP inline fileRules) = raw.length)
  ∧ (∀ (v : Violation) (f rest : String), f ∈ fileRules → '/' ∉ f.data →
       v.rule = f ++ "/" ++ rest → suppressedP inline fileRules v = true) := by
  refine ⟨rfl, resolveSuppression_eq raw inline fileRules, ?_, ?_, ?_⟩
  · intro v
    simp [suppressedP]
  · exact filter_countP_partition raw (suppressedP inline fileRules)
  · intro v f rest hf hslash hrule
    simp only [suppressedP, decide_eq_true_eq]
    refine Or.inr (Or.inr (Or.inr ?_))
    rw [hrule, familyOf_append f rest hslash]
    exact hf

/-- C2 witness: file-level family token `header` suppresses a
`header/pragma-once` violation. -/
theorem c2_suppression_resolution_witness :
    suppressedP [] ["header"] ⟨"src/a.h", 1, "header/pragma-once", "m", "error"⟩ = true :=
  (c2_suppression_resolution [] [] ["header"] "" "" none []).2.2.2.2
    ⟨"src/a.h", 1, "header/pragma-once", "m", "error"⟩ "header" "pragma-once"
    (by decide) (by decide) (by decide)

/-! ### Claim C3: per-file read failure -/

/-- C3 counterexample: a file whose read fails yields the pair
`([], 0)` — zero violations, zero suppressed, and in particular NO
read-error diagnostic of any kind, contrary to the claim's "distinct
read-error diagnostic". -/
theorem c3_read_error_counterexample :
    lint_file (Except.error ()) "src/core/ray.h" none [] = ([], 0) := rfl

/-- Folding the lint step from an arbitrary starting statistic adds the
run's own statistics componentwise. -/
theorem lintFold_shift (rf conf : Option String)
    (files : List (String × Except Unit String)) (s : LintStats) :
    files.foldl (lintStep rf conf) s =
      ⟨s.files_checked + (run_lint files rf conf).files_checked,
       s.files_passed + (run_lint files rf conf).files_passed,
       s.violations ++ (run_lint files rf conf).violations,
       s.suppressed + (run_lint files rf conf).suppressed⟩ := by
  induction files generalizing s with
  | nil => simp [run_lint]
  | cons f fs ih =>
    show fs.foldl (lintStep rf conf) (lintStep rf conf s f) = _
    rw [ih (lintStep rf conf s f)]
    have h2 : run_lint (f :: fs) rf conf =
        fs.foldl (lintStep rf conf) (lintStep rf conf ⟨0, 0, [], 0⟩ f) := rfl
    rw [h2, ih (lintStep rf conf ⟨0, 0, [], 0⟩ f)]
    simp only [lintStep, LintStats.mk.injEq]
    refine ⟨by omega, by omega, by simp, by omega⟩

/-- C3 amended: a file whose read fails does not abort the run: it
contributes zero violations and zero suppressions, no diagnostic is
emitted for it, it is counted as checked AND as passed, and the engine's
result on the remaining files is untouched. -/
theorem c3_read_error_amended (p : String) (rest : List (String × Except Unit String))
    (rf conf : Option String) :
    lint_file (Except.error ()) p rf (load_file_suppressions conf) = ([], 0)
  ∧ run_lint ((p, Except.error ()) :: rest) rf conf =
      ⟨(run_lint rest rf conf).files_checked + 1,
       (run_lint rest rf conf).files_passed + 1,
       (run_lint rest rf conf).violations,
       (run_lint rest rf conf).suppressed⟩ := by
  constructor
  · rfl
  · show rest.foldl (lintStep rf conf) (lintStep rf conf ⟨0, 0, [], 0⟩ (p, Except.error ())) = _
    have hstep : lintStep rf conf ⟨0, 0, [], 0⟩ (p, Except.error ()) = ⟨1, 1, [], 0⟩ := rfl
    rw [hstep, lintFold_shift]
    simp [Nat.add_comm]

/-! ### Claim C9: determinism -/

/-- C9: `run_lint` is a pure function of the file set (paths plus read
outcomes), rule filter and configuration text: equal inputs give equal
violation lists and equal statistics, including the derived rule-id
counts and failed-file count. -/
theorem c9_deterministic (files1 files2 : List (String × Except Unit String))
    (rf1 rf2 conf1 conf2 : Option String)
    (hf : files1 = files2) (hr : rf1 = rf2) (hc : conf1 = conf2) :
    run_lint files1 rf1 conf1 = run_lint files2 rf2 conf2
  ∧ (run_lint files1 rf1 conf1).violations = (run_lint files2 rf2 conf2).violations
  ∧ rule_counts (run_lint files1 rf1 conf1) = rule_counts (run_lint files2 rf2 conf2)
  ∧ files_failed (run_lint files1 rf1 conf1) = files_failed (run_lint files2 rf2 conf2) := by
  subst hf; subst hr; subst hc
  exact ⟨rfl, rfl, rfl, rfl⟩

/-- C9 witness: the determinism theorem applied to a concrete run. -/
theorem c9_deterministic_witness :
    run_lint [("src/a.gd", Except.ok "x")] none none =
      run_lint [("src/a.gd", Except.ok "x")] none none :=
  (c9_deterministic [("src/a.gd", Except.ok "x")] [("src/a.gd", Except.ok "x")]
    none none none none rfl rfl rfl).1

/-! ### Line-number bounds per check (for claim C4) -/

/-- Every violation the tiger scan emits from index `i` cites a 1-based
line inside the file. -/
theorem tigerScan_line_bound (path : String) (lines : List String) (i : Nat) :
    ∀ v ∈ tigerScan path lines i, 1 ≤ v.line ∧ v.line ≤ lines.length := by
  intro v hv
  rw [tigerScan.eq_def] at hv
  split at hv
  case isTrue hi =>
    split at hv
    · exact tigerScan_line_bound path lines (i + 1) v hv
    case h_2 nm =>
      split at hv
      · exact tigerScan_line_bound path lines (i + 1) v hv
      · split at hv
        · exact tigerScan_line_bound path lines (i + 1) v hv
        · split at hv
          · exact tigerScan_line_bound path lines (i + 1) v hv
          · split at hv
            · exact tigerScan_line_bound path lines
                (findBodyEnd lines (braceDelta (lines.getD i "")).toNat (i + 1)) v hv
            · split at hv
              · rcases List.mem_cons.mp hv with h | h
                · subst h
                  simp only [densityViolation]
                  omega
                · exact tigerScan_line_bound path lines
                    (findBodyEnd lines (braceDelta (lines.getD i "")).toNat (i + 1)) v h
              · exact tigerScan_line_bound path lines
                  (findBodyEnd lines (braceDelta (lines.getD i "")).toNat (i + 1)) v hv
  case isFalse => exact absurd hv (by simp)
termination_by lines.length - i
decreasing_by
  all_goals first
    | omega
    | (have h := findBodyEnd_ge lines (braceDelta (lines.getD i "")).toNat (i + 1); omega)

/-- Every match the gpu finditer reports starts inside the text. -/
theorem gpuFindAux_pos_lt (s : List Char) (fuel : Nat) :
    ∀ (pos : Nat), ∀ p ∈ gpuFindAux s pos fuel, p.1 < s.length := by
  induction fuel with
  | zero =>
    intro pos p hp
    exact absurd hp (by simp [gpuFindAux])
  | succ fuel ih =>
    intro pos p hp
    simp only [gpuFindAux] at hp
    by_cases hlt : pos < s.length
    · rw [if_pos hlt] at hp
      rcases hm : gpuMatchAt s pos with _ | ⟨nm, e⟩
      · simp only [hm] at hp
        exact ih _ p hp
      · simp only [hm] at hp
        rcases List.mem_cons.mp hp with h | h
        · subst h
          exact hlt
        · exact ih _ p h
    · rw [if_neg hlt] at hp
      exact absurd hp (by simp)

/-- Lines produced by the splitlines worker contain no newline character
(provided the accumulator contains none). -/
theorem pySplitAux_no_nl :
    ∀ (cs : List Char) (flag : Bool) (acc : List Char), '\n' ∉ acc →
      ∀ l ∈ pySplitAux cs flag acc, '\n' ∉ l.data := by
  intro cs
  induction cs with
  | nil =>
    intro flag acc hacc l hl
    simp only [pySplitAux] at hl
    split at hl
    · exact absurd hl (by simp)
    · rw [List.mem_singleton] at hl
      subst hl
      simpa using hacc
  | cons c rest ih =>
    intro flag acc hacc l hl
    simp only [pySplitAux] at hl
    split at hl
    · exact ih false acc hacc l hl
    · split at hl
      · rcases List.mem_cons.mp hl with h | h
        · subst h; simpa using hacc
        · exact ih _ [] (by simp) l h
      · rename_i hskip hbnd
        refine ih false (c :: acc) ?_ l hl
        intro hc
        rcases List.mem_cons.mp hc with h | h
        · subst h
          simp [isLineBoundary] at hbnd
        · exact hacc h

/-- No line of `pySplitlines text` contains a newline. -/
theorem pySplitlines_no_nl (text : String) :
    ∀ l ∈ pySplitlines text, '\n' ∉ l.data :=
  pySplitAux_no_nl text.data false [] (by simp)

/-- The joined text has exactly `lines.length - 1` newlines when no line
contains one. -/
theorem joinLines_count_nl (lines : List String) (hnl : ∀ l ∈ lines, '\n' ∉ l.data) :
    (joinLines lines).data.count '\n' = lines.length - 1 := by
  match lines with
  | [] => simp [joinLines]
  | [l] =>
    have h0 : (joinLines [l]).data = l.data := rfl
    rw [h0]
    have : l.data.count '\n' = 0 :=
      List.count_eq_zero.mpr (hnl l (by simp))
    simp [this]
  | l :: l2 :: rest =>
    have h0 : (joinLines (l :: l2 :: rest)).data =
        l.data ++ '\n' :: (joinLines (l2 :: rest)).data := by
      show (l ++ "\n" ++ joinLines (l2 :: rest)).data = _
      rw [String.data_append, String.data_append]
      show (l.data ++ ['\n']) ++ _ = _
      simp
    rw [h0, List.count_append]
    have h1 : l.data.count '\n' = 0 :=
      List.count_eq_zero.mpr (hnl l (by simp))
    have h2 := joinLines_count_nl (l2 :: rest) (fun x hx => hnl x (by simp [hx]))
    have h4 : ('\n' :: (joinLines (l2 :: rest)).data).count '\n' =
        (joinLines (l2 :: rest)).data.count '\n' + 1 := by simp
    rw [h1, h4]
    simp only [List.length_cons] at h2 ⊢
    omega

/-- Prefix counts never exceed whole-list counts. -/
theorem count_take_le (s : List Char) (n : Nat) (c : Char) :
    (s.take n).count c ≤ s.count c :=
  (List.take_sublist n s).count_le c

/-- An enumerated index is below the list length. -/
theorem enum_fst_lt {α : Type} {l : List α} {i : Nat} {x : α} (h : (i, x) ∈ l.enum) :
    i < l.length :=
  (List.getElem?_eq_some.mp (List.mk_mem_enum_iff_getElem?.mp h)).1

/-- Pragma-once violations always cite line 1. -/
theorem check_header_pragma_once_line (path : String) (lines : List String) :
    ∀ v ∈ check_header_pragma_once path lines, v.line = 1 := by
  intro v hv
  unfold check_header_pragma_once at hv
  split at hv
  · exact absurd hv (by simp)
  · split at hv
    · rw [List.mem_singleton] at hv
      subst hv
      rfl
    · exact absurd hv (by simp)

/-- Description violations always cite line 2. -/
theorem check_header_description_line (path : String) (lines : List String) :
    ∀ v ∈ check_header_description path lines, v.line = 2 := by
  intro v hv
  unfold check_header_description at hv
  split at hv
  · exact absurd hv (by simp)
  · split at hv
    · rw [List.mem_singleton] at hv
      subst hv
      rfl
    · split at hv
      · rw [List.mem_singleton] at hv
        subst hv
        rfl
      · exact absurd hv (by simp)

/-- Every gpu violation cites a line inside the file, provided no line
contains a raw newline (true of any `pySplitlines` output). -/
theorem check_gpu_line_bound (path : String) (lines : List String)
    (hnl : ∀ l ∈ lines, '\n' ∉ l.data) :
    ∀ v ∈ check_gpu_static_assert path lines, 1 ≤ v.line ∧ v.line ≤ lines.length := by
  intro v hv
  unfold check_gpu_static_assert at hv
  split at hv
  · exact absurd hv (by simp)
  · rw [List.mem_filterMap] at hv
    obtain ⟨m, hm, hf⟩ := hv
    split at hf
    · exact absurd hf (by simp)
    · obtain rfl : _ = v := Option.some.inj hf
      have hpos := gpuFindAux_pos_lt (joinLines lines).data
        ((joinLines lines).data.length + 1) 0 m hm
      have hcount := joinLines_count_nl lines hnl
      have htake := count_take_le (joinLines lines).data m.1 '\n'
      have hne : 1 ≤ lines.length := by
        rcases lines with _ | ⟨l, rest⟩
        · simp [joinLines] at hpos
        · simp
      constructor
      · simp
      · simp only []
        omega

/-- Every module-boundary violation cites a line inside the file. -/
theorem check_module_line_bound (path : String) (lines : List String) :
    ∀ v ∈ check_module_boundary path lines, 1 ≤ v.line ∧ v.line ≤ lines.length := by
  intro v hv
  unfold check_module_boundary at hv
  split at hv
  · exact absurd hv (by simp)
  · rw [List.mem_flatMap] at hv
    obtain ⟨entry, hentry, hv⟩ := hv
    split at hv
    · exact absurd hv (by simp)
    · rw [List.mem_flatMap] at hv
      obtain ⟨il, hil, hv⟩ := hv
      rw [List.mem_filterMap] at hv
      obtain ⟨nd, hnd, hf⟩ := hv
      split at hf
      · obtain rfl : _ = v := Option.some.inj hf
        have := enum_fst_lt hil
        constructor
        · simp
        · simp only []
          omega
      · exact absurd hf (by simp)

/-- Naming-step violations cite exactly line `i + 1`. -/
theorem stepNaming_line (path : String) (i : Nat) (line : String) :
    ∀ v ∈ stepNaming path i line, v.line = i + 1 := by
  intro v hv
  unfold stepNaming at hv
  split at hv
  · exact absurd hv (by simp)
  · split at hv
    · exact absurd hv (by simp)
    · split at hv
      · exact absurd hv (by simp)
      · rw [List.mem_singleton] at hv
        subst hv
        rfl

/-- Every naming violation cites a line inside the file. -/
theorem check_naming_line_bound (path : String) (lines : List String) :
    ∀ v ∈ check_naming_class_pascal path lines, 1 ≤ v.line ∧ v.line ≤ lines.length := by
  intro v hv
  unfold check_naming_class_pascal at hv
  split at hv
  · exact absurd hv (by simp)
  · rw [List.mem_flatMap] at hv
    obtain ⟨il, hil, hv⟩ := hv
    have h1 := stepNaming_line path il.1 il.2 v hv
    have h2 := enum_fst_lt (l := lines) (i := il.1) (x := il.2) (by simpa using hil)
    omega

/-- Per-line godot-native violations cite exactly line `i + 1`. -/
theorem gnLine_line (path : String) (i : Nat) (line : String) :
    ∀ v ∈ gnLine path i line, v.line = i + 1 := by
  intro v hv
  unfold gnLine at hv
  rcases List.mem_append.mp hv with h | h
  · rw [List.mem_filterMap] at h
    obtain ⟨pm, hpm, hf⟩ := h
    split at hf
    · obtain rfl : _ = v := Option.some.inj hf
      rfl
    · exact absurd hf (by simp)
  · split at h
    · rw [List.mem_filterMap] at h
      obtain ⟨t, ht, hf⟩ := h
      split at hf
      · obtain rfl : _ = v := Option.some.inj hf
        rfl
      · exact absurd hf (by simp)
    · exact absurd h (by simp)

/-- Every violation of the godot-native scan comes from one of the
enumerated lines it walks. -/
theorem gnAux_mem (path : String) :
    ∀ (ps : List (Nat × String)) (cur : Option String) (depth : Int) (v : Violation),
      v ∈ gnAux path ps cur depth → ∃ il ∈ ps, v ∈ gnLine path il.1 il.2 := by
  intro ps
  induction ps with
  | nil =>
    intro cur depth v hv
    exact absurd hv (by simp [gnAux])
  | cons il rest ih =>
    intro cur depth v hv
    obtain ⟨i, line⟩ := il
    simp only [gnAux] at hv
    rcases List.mem_append.mp hv with h | h
    · refine ⟨(i, line), by simp, ?_⟩
      split at h
      · split at h
        · exact absurd h (by simp)
        · split at h
          · exact absurd h (by simp)
          · exact h
      · split at h
        · exact absurd h (by simp)
        · exact h
    · obtain ⟨il2, hil2, hv2⟩ := ih _ _ v h
      exact ⟨il2, by simp [hil2], hv2⟩

/-- Every godot-native violation cites a line inside the file. -/
theorem check_godot_line_bound (path : String) (lines : List String) :
    ∀ v ∈ check_godot_native_cpp path lines, 1 ≤ v.line ∧ v.line ≤ lines.length := by
  intro v hv
  unfold check_godot_native_cpp at hv
  split at hv
  · exact absurd hv (by simp)
  · obtain ⟨il, hil, hv2⟩ := gnAux_mem path lines.enum none 0 v hv
    have h1 := gnLine_line path il.1 il.2 v hv2
    have h2 := enum_fst_lt (l := lines) (i := il.1) (x := il.2) (by simpa using hil)
    omega

/-! ### Claim C4: violation line numbers -/

/-- C4 counterexample: a one-line header file; `check_header_description`
reports a violation at line 2, which exceeds the file's line count of 1,
so the claimed invariant `line ≤ len(lines)` fails. -/
theorem c4_line_bound_counterexample :
    pySplitlines "#pragma once" = ["#pragma once"]
  ∧ check_header_description "src/a.h" (pySplitlines "#pragma once") =
      [⟨"src/a.h", 2, "header/description", "Missing file description on line 2", "error"⟩]
  ∧ 2 > (pySplitlines "#pragma once").length := by
  exact ⟨by decide, by decide, by decide⟩

/-- C4 amended: every violation any registered rule check produces for a
file cites a 1-based line in `[1, max len 2]`: the two header checks may
cite lines 1 and 2 even on files with fewer than 2 lines, and every other
check stays within `[1, len]` (see the per-check bound lemmas). -/
theorem c4_line_bound_amended (path text : String) (rf : Option String) :
    ∀ v ∈ rawViolations path (pySplitlines text) rf,
      1 ≤ v.line ∧ v.line ≤ max (pySplitlines text).length 2 := by
  intro v hv
  unfold rawViolations at hv
  rw [List.mem_flatMap] at hv
  obtain ⟨fc, hfc, hv⟩ := hv
  simp only [RULE_CHECKS, List.mem_cons, List.not_mem_nil, or_false] at hfc
  have hmaxl := Nat.le_max_left (pySplitlines text).length 2
  have hmaxr := Nat.le_max_right (pySplitlines text).length 2
  rcases hfc with h | h | h | h | h | h
  · subst h
    split at hv
    · rw [List.mem_flatMap] at hv
      obtain ⟨check, hcheck, hv⟩ := hv
      simp only [List.mem_cons, List.not_mem_nil, or_false] at hcheck
      rcases hcheck with h2 | h2 <;> subst h2
      · have := check_header_pragma_once_line path (pySplitlines text) v hv
        omega
      · have := check_header_description_line path (pySplitlines text) v hv
        omega
    · exact absurd hv (by simp)
  · subst h
    split at hv
    · rw [List.mem_flatMap] at hv
      obtain ⟨check, hcheck, hv⟩ := hv
      simp only [List.mem_singleton] at hcheck
      subst hcheck
      unfold check_tiger_assertion_density at hv
      split at hv
      · have := tigerScan_line_bound path (pySplitlines text) 0 v hv
        omega
      · exact absurd hv (by simp)
    · exact absurd hv (by simp)
  · subst h
    split at hv
    · rw [List.mem_flatMap] at hv
      obtain ⟨check, hcheck, hv⟩ := hv
      simp only [List.mem_singleton] at hcheck
      subst hcheck
      have := check_gpu_line_bound path (pySplitlines text) (pySplitlines_no_nl text) v hv
      omega
    · exact absurd hv (by simp)
  · subst h
    split at hv
    · rw [List.mem_flatMap] at hv
      obtain ⟨check, hcheck, hv⟩ := hv
      simp only [List.mem_singleton] at hcheck
      subst hcheck
      have := check_module_line_bound path (pySplitlines text) v hv
      omega
    · exact absurd hv (by simp)
  · subst h
    split at hv
    · rw [List.mem_flatMap] at hv
      obtain ⟨check, hcheck, hv⟩ := hv
      simp only [List.mem_singleton] at hcheck
      subst hcheck
      have := check_naming_line_bound path (pySplitlines text) v hv
      omega
    · exact absurd hv (by simp)
  · subst h
    split at hv
    · rw [List.mem_flatMap] at hv
      obtain ⟨check, hcheck, hv⟩ := hv
      simp only [List.mem_singleton] at hcheck
      subst hcheck
      have := check_godot_line_bound path (pySplitlines text) v hv
      omega
    · exact absurd hv (by simp)

/-- C4 amended witness: the bound applied to the description violation of
a one-line header file. -/
theorem c4_line_bound_amended_witness :
    1 ≤ (Violation.mk "src/a.h" 2 "header/description"
        "Missing file description on line 2" "error").line
  ∧ (Violation.mk "src/a.h" 2 "header/description"
        "Missing file description on line 2" "error").line ≤
      max (pySplitlines "#pragma once").length 2 :=
  c4_line_bound_amended "src/a.h" "#pragma once" none
    ⟨"src/a.h", 2, "header/description", "Missing file description on line 2", "error"⟩
    (by decide)

/-! ### Claim C5: assertion density -/

/-- A six-line function body whose only assertion macros — two of them —
sit on a single body line. -/
def densityCexLines : List String :=
  ["void foo() \x7b",
   "  RT_ASSERT(a); RT_ASSERT(b);", "  a1;", "  a2;", "  a3;", "  a4;", "\x7d"]

/-- C5 counterexample: this body contains 2 assertion-macro occurrences,
yet the density check still reports exactly one violation citing
"1 assertion(s)" — the check counts body lines containing an assertion,
not assertion occurrences, so two occurrences on one line do not satisfy
it, contradicting the claim's "produces no violation when it contains 2
or more". -/
theorem c5_density_counterexample :
    check_tiger_assertion_density "src/a.cpp" densityCexLines =
      [⟨"src/a.cpp", 1, "tiger/assertion-density",
        "Function \x27foo\x27 has 1 assertion(s), need ≥2 (body is 6 lines)", "warning"⟩]
  ∧ assertOccurrencesInBody densityCexLines 1 7 = 2 := by
  constructor
  · rw [check_tiger_assertion_density, if_pos (by decide)]
    rw [tigerScan.eq_def]
    rw [dif_pos (by decide : (0 : Nat) < densityCexLines.length)]
    rw [show matchFuncDef (densityCexLines.getD 0 "") = some "foo" from by decide]
    dsimp only
    rw [if_neg (by decide), if_neg (by decide), if_neg (by decide)]
    rw [show findBodyEnd densityCexLines
          (braceDelta (densityCexLines.getD 0 "")).toNat (0 + 1) = 7 from by decide]
    rw [if_neg (by decide), if_pos (by decide)]
    rw [tigerScan.eq_def]
    rw [dif_neg (by decide : ¬ (7 : Nat) < densityCexLines.length)]
    decide
  · decide

/-- C5 amended: for an extracted function (a matched definition line whose
unqualified name is neither a reserved keyword nor a trivial-name prefix),
a body that opens and closes on the definition line is skipped, a body
below the 5-line threshold is skipped, a non-trivial body with exactly ONE
body line carrying an assertion macro yields exactly one warning violation
citing count 1, and a non-trivial body with at least TWO such lines yields
none.  The count is of assertion-carrying lines, not occurrences. -/
theorem c5_density_amended (path : String) (lines : List String) (i : Nat) (nm : String)
    (be cnt : Nat)
    (hi : i < lines.length)
    (hm : matchFuncDef (lines.getD i "") = some nm)
    (hkw : unqualifiedName nm ∉ cppKeywords)
    (htr : (trivialNameStarts.any fun p => pyStartsWith (unqualifiedName nm) p) = false)
    (hbe : be = findBodyEnd lines (braceDelta (lines.getD i "")).toNat (i + 1))
    (hcnt : cnt = countAssertLines lines (i + 1) be) :
    (braceDelta (lines.getD i "") ≤ 0 → tigerScan path lines i = tigerScan path lines (i + 1))
  ∧ (0 < braceDelta (lines.getD i "") → be - (i + 1) < 5 →
      tigerScan path lines i = tigerScan path lines be)
  ∧ (0 < braceDelta (lines.getD i "") → 5 ≤ be - (i + 1) → cnt = 1 →
      tigerScan path lines i =
        densityViolation path i nm 1 (be - (i + 1)) :: tigerScan path lines be)
  ∧ (0 < braceDelta (lines.getD i "") → 5 ≤ be - (i + 1) → 2 ≤ cnt →
      tigerScan path lines i = tigerScan path lines be)
  ∧ (∀ x : Nat, (densityViolation path i nm 1 x).severity = "warning"
      ∧ (densityViolation path i nm 1 x).line = i + 1) := by
  subst hcnt
  subst hbe
  refine ⟨?_, ?_, ?_, ?_, fun x => ⟨rfl, rfl⟩⟩
  · intro hd
    rw [tigerScan.eq_def, dif_pos hi, hm]
    dsimp only
    rw [if_neg hkw, if_neg (by simp [htr]), if_pos hd]
  · intro hd h5
    rw [tigerScan.eq_def, dif_pos hi, hm]
    dsimp only
    rw [if_neg hkw, if_neg (by simp [htr]), if_neg (by omega), if_pos h5]
  · intro hd h5 hc
    rw [tigerScan.eq_def, dif_pos hi, hm]
    dsimp only
    rw [if_neg hkw, if_neg (by simp [htr]), if_neg (by omega), if_neg (by omega),
      if_pos (by omega)]
    rw [hc]
  · intro hd h5 hc2
    rw [tigerScan.eq_def, dif_pos hi, hm]
    dsimp only
    rw [if_neg hkw, if_neg (by simp [htr]), if_neg (by omega), if_neg (by omega),
      if_neg (by omega)]

/-- A six-line function body with exactly one assertion-carrying line. -/
def densityWitnessLines : List String :=
  ["int bar() \x7b", "  x;", "  RT_VERIFY(x);", "  y;", "  z;", "  w;", "\x7d"]

/-- C5 amended witness: the one-assertion-line case applied concretely. -/
theorem c5_density_amended_witness :
    tigerScan "src/b.cpp" densityWitnessLines 0 =
      densityViolation "src/b.cpp" 0 "bar" 1 (7 - (0 + 1)) ::
        tigerScan "src/b.cpp" densityWitnessLines 7 :=
  (c5_density_amended "src/b.cpp" densityWitnessLines 0 "bar" 7 1
    (by decide) (by decide) (by decide) (by decide) (by decide) (by decide)).2.2.1
    (by decide) (by decide) rfl

/-! ### Claim C10: trivial-name-prefix functions -/

/-- C10: when the function-definition heuristic matches line `i` with a
name whose unqualified form starts with one of the trivial prefixes
(get_, set_, is_, has_, _bind_methods, operator, _notification), the
density scan contributes no violation for that match and simply moves to
the next line, regardless of the body's length or assertion count. -/
theorem c10_trivial_prefix_skip (path : String) (lines : List String) (i : Nat) (nm : String)
    (hi : i < lines.length)
    (hm : matchFuncDef (lines.getD i "") = some nm)
    (htr : (trivialNameStarts.any fun p => pyStartsWith (unqualifiedName nm) p) = true) :
    tigerScan path lines i = tigerScan path lines (i + 1) := by
  rw [tigerScan.eq_def, dif_pos hi, hm]
  dsimp only
  by_cases hkw : unqualifiedName nm ∈ cppKeywords
  · rw [if_pos hkw]
  · rw [if_neg hkw, if_pos htr]

/-- A six-line getter body with no assertions at all. -/
def trivialGetterLines : List String :=
  ["void get_x() \x7b", "  a;", "  b;", "  c;", "  d;", "  e;", "\x7d"]

/-- C10 witness: the skip applied to a concrete assertion-free getter. -/
theorem c10_trivial_prefix_skip_witness :
    tigerScan "src/a.cpp" trivialGetterLines 0 =
      tigerScan "src/a.cpp" trivialGetterLines 1 :=
  c10_trivial_prefix_skip "src/a.cpp" trivialGetterLines 0 "get_x"
    (by decide) (by decide) (by decide)

/-! ### Claim C6: gpu static-assert -/

/-- C6: when the gpu regex finds exactly one struct in the joined file
text, capturing name `nm` at offset `start`, the check emits exactly one
`gpu/static-assert` violation at the struct's definition line if the
literal `static_assert(sizeof(<nm>)` text is absent from the whole file,
and none at all if that text appears anywhere in the file. -/
theorem c6_gpu_struct (path : String) (lines : List String) (start : Nat) (nm : String)
    (hp : (pyEndsWith path ".h" || pyEndsWith path ".cpp") = true)
    (hfind : gpuFinditer (joinLines lines).data = [(start, nm)]) :
    (containsSub (joinLines lines).data ("static_assert(sizeof(" ++ nm ++ ")").data = false →
      check_gpu_static_assert path lines =
        [⟨path, ((joinLines lines).data.take start).count '\n' + 1, "gpu/static-assert",
          "GPU struct \x27" ++ nm ++ "\x27 needs static_assert(sizeof(...))", "error"⟩])
  ∧ (containsSub (joinLines lines).data ("static_assert(sizeof(" ++ nm ++ ")").data = true →
      check_gpu_static_assert path lines = []) := by
  constructor <;> intro hc
  · unfold check_gpu_static_assert
    rw [if_neg (by simp [hp]), hfind, List.filterMap_cons]
    dsimp only
    rw [if_neg (by simpa using hc)]
    simp
  · unfold check_gpu_static_assert
    rw [if_neg (by simp [hp]), hfind, List.filterMap_cons]
    dsimp only
    rw [if_pos (by simpa using hc)]
    simp

/-- A header file declaring `GPUFooPacked` with no size assertion. -/
def gpuWitnessLines : List String := ["struct GPUFooPacked \x7b", "\x7d;"]

/-- C6 witness: the missing-assertion case applied concretely, giving one
violation at line 1. -/
theorem c6_gpu_struct_witness :
    check_gpu_static_assert "src/gpu/types.h" gpuWitnessLines =
      [⟨"src/gpu/types.h", 1, "gpu/static-assert",
        "GPU struct \x27GPUFooPacked\x27 needs static_assert(sizeof(...))", "error"⟩] := by
  have h := (c6_gpu_struct "src/gpu/types.h" gpuWitnessLines 0 "GPUFooPacked"
    (by decide) (by decide)).1 (by decide)
  rw [h]
  decide

/-! ### Claim C7: header checks -/

/-- The header family's checks run in registry order. -/
def headerViolations (path : String) (lines : List String) : List Violation :=
  check_header_pragma_once path lines ++ check_header_description path lines

/-- C7 counterexample: a header that passes both header checks loses its
guard line; the resulting file produces TWO header violations — the
pragma-once violation at line 1 AND a description violation at line 2
(the description shifted to line 1) — not "exactly one". -/
theorem c7_header_counterexample :
    headerViolations "src/a.h" ["#pragma once", "// a.h — x", "y"] = []
  ∧ headerViolations "src/a.h" ["// a.h — x", "y"] =
      [⟨"src/a.h", 1, "header/pragma-once",
        "Header must start with \x27#pragma once\x27", "error"⟩,
       ⟨"src/a.h", 2, "header/description",
        "Line 2 should be \x27// a.h — description\x27", "error"⟩] := by
  exact ⟨by decide, by decide⟩

/-- C7 amended: a header beginning with the exact guard line and a
`// <filename>` description line produces zero header violations; with
the guard line omitted it produces the pragma-once violation at line 1,
PLUS a description violation at line 2 — "Missing file description" when
nothing follows the shifted description, or the template violation when
the following line does not itself look like a description. -/
theorem c7_header_amended (path : String) (descLine : String) (rest : List String)
    (hh : pyEndsWith path ".h" = true)
    (hdesc : pyStartsWith (pyStrip descLine) ("// " ++ basenameOf path) = true) :
    headerViolations path ("#pragma once" :: descLine :: rest) = []
  ∧ check_header_pragma_once path (descLine :: rest) =
      [⟨path, 1, "header/pragma-once",
        "Header must start with \x27#pragma once\x27", "error"⟩]
  ∧ (rest = [] →
      check_header_description path (descLine :: rest) =
        [⟨path, 2, "header/description", "Missing file description on line 2", "error"⟩])
  ∧ (∀ l2 rest2, rest = l2 :: rest2 →
      pyStartsWith (pyStrip l2) ("// " ++ basenameOf path) = false →
      pyStartsWith (pyStrip l2) ("// " ++ pyReplace (basenameOf path) ".h" "") = false →
      check_header_description path (descLine :: rest) =
        [⟨path, 2, "header/description",
          "Line 2 should be \x27// " ++ basenameOf path ++ " — description\x27", "error"⟩]) := by
  have hstrip : pyStrip "#pragma once" = "#pragma once" := by decide
  have hne : pyStrip descLine ≠ "#pragma once" := by
    intro he
    rw [he] at hdesc
    unfold pyStartsWith at hdesc
    rw [String.data_append] at hdesc
    obtain ⟨t, ht⟩ := List.isPrefixOf_iff_prefix.mp hdesc
    have h1 : "// ".data = '/' :: '/' :: ' ' :: [] := rfl
    have h2 : "#pragma once".data = '#' :: "pragma once".data := rfl
    rw [h1, h2] at ht
    simp at ht
  refine ⟨?_, ?_, ?_, ?_⟩
  · simp [headerViolations, check_header_pragma_once, check_header_description,
      hh, hstrip, hdesc]
  · simp [check_header_pragma_once, hh, hne]
  · intro h
    subst h
    simp [check_header_description, hh]
  · intro l2 rest2 hrest h1 h2
    subst hrest
    simp [check_header_description, hh, h1, h2]

/-- C7 amended witness: the zero-violation case applied concretely. -/
theorem c7_header_amended_witness :
    headerViolations "src/a.h" ["#pragma once", "// a.h — d", "int x;"] = [] :=
  (c7_header_amended "src/a.h" "// a.h — d" ["int x;"] (by decide) (by decide)).1

/-! ### Claim C8: naming check -/

/-- Modelled from the claim's words: a name is "all-uppercase" when it has
at least one uppercase letter and no lowercase letter (Python
`str.isupper` semantics, which covers macro names with underscores). -/
def claimAllUppercase (name : String) : Bool :=
  name.data.any (fun c => c.isUpper) && name.data.all (fun c => !c.isLower)

/-- Modelled from the claim's words: strip a recognized interface prefix —
a single uppercase letter followed by another uppercase letter — before
testing. -/
def claimInterfaceStrip (name : String) : String :=
  match name.data with
  | c1 :: c2 :: rest => if c1.isUpper && c2.isUpper then String.mk (c2 :: rest) else name
  | _ => name

/-- Modelled from the claim's words: the naming check fails exactly when
the name is not skipped (all-uppercase or underscore-prefixed) and the
prefix-stripped remainder is not PascalCase. -/
def claimNamingFails (name : String) : Bool :=
  !(claimAllUppercase name || pyStartsWith name "_") && !isPascal (claimInterfaceStrip name)

/-- C8 counterexample: `struct MY_MACRO {` declares an all-uppercase
macro-style name, which the claim says the check skips — yet
`check_naming_class_pascal` reports a violation for it (the code has no
all-uppercase skip, only the literal exemptions GDCLASS and
VARIANT_ENUM_CAST). -/
theorem c8_naming_counterexample :
    classDeclMatch "struct MY_MACRO \x7b" = some "MY_MACRO"
  ∧ claimNamingFails "MY_MACRO" = false
  ∧ check_naming_class_pascal "src/a.h" ["struct MY_MACRO \x7b"] =
      [⟨"src/a.h", 1, "naming/class-pascal",
        "Class/struct \x27MY_MACRO\x27 should be PascalCase", "error"⟩] := by
  exact ⟨by decide, by decide, by decide⟩

/-- C8 amended: for a matched declaration the check skips exactly the
names starting with an underscore or equal to one of the two literal
exemptions, and otherwise fails exactly when the name is not PascalCase;
no interface-prefix stripping happens, but stripping would never change
the PascalCase outcome; names made only of uppercase letters pass the
PascalCase test (so they are never flagged even without a skip); and a
line with no declaration match contributes nothing. -/
theorem c8_naming_amended (path line : String) (i : Nat) (nm : String)
    (hm : classDeclMatch line = some nm) :
    (stepNaming path i line =
      if pyStartsWith nm "_" = true ∨ nm ∈ namingExempt ∨ isPascal nm = true then []
      else [⟨path, i + 1, "naming/class-pascal",
        "Class/struct \x27" ++ nm ++ "\x27 should be PascalCase", "error"⟩])
  ∧ (∀ nm2 : String, isPascal (claimInterfaceStrip nm2) = isPascal nm2)
  ∧ (∀ nm2 : String, nm2.data ≠ [] → (∀ c ∈ nm2.data, c.isUpper) → isPascal nm2 = true)
  ∧ (∀ l2, classDeclMatch l2 = none → stepNaming path i l2 = [])
  ∧ (∀ ls : List String, pyEndsWith path ".h" = true →
      check_naming_class_pascal path ls =
        ls.enum.flatMap (fun il => stepNaming path il.1 il.2)) := by
  refine ⟨?_, ?_, ?_, ?_, ?_⟩
  · unfold stepNaming
    rw [hm]
    dsimp only
    by_cases h1 : pyStartsWith nm "_" = true
    · simp [h1]
    · by_cases h2 : nm ∈ namingExempt
      · simp [h1, h2]
      · by_cases h3 : isPascal nm = true
        · simp [h1, h2, h3]
        · simp [h1, h2, h3]
  · intro nm2
    obtain ⟨l⟩ := nm2
    match l with
    | [] => rfl
    | [c] => rfl
    | c1 :: c2 :: rest =>
      simp only [claimInterfaceStrip]
      by_cases h : (c1.isUpper && c2.isUpper) = true
      · rw [if_pos h]
        obtain ⟨h1, h2⟩ := Bool.and_eq_true_iff.mp h
        have hal : c2.isAlphanum = true := by
          simp [Char.isAlphanum, Char.isAlpha, h2]
        simp [isPascal, h1, h2, hal]
      · rw [if_neg h]
  · intro nm2 hne hall
    obtain ⟨l⟩ := nm2
    match l with
    | [] => exact absurd rfl hne
    | c :: cs =>
      have hc := hall c (by simp)
      simp only [isPascal]
      rw [hc]
      simp only [Bool.true_and, List.all_eq_true]
      intro x hx
      have := hall x (by simp [hx])
      simp [Char.isAlphanum, Char.isAlpha, this]
  · intro l2 h
    simp [stepNaming, h]
  · intro ls hph
    simp [check_naming_class_pascal, hph]

/-- C8 amended witness: a lowercase struct name is flagged. -/
theorem c8_naming_amended_witness :
    stepNaming "src/a.h" 0 "struct lowercase_name \x7b" =
      [⟨"src/a.h", 1, "naming/class-pascal",
        "Class/struct \x27lowercase_name\x27 should be PascalCase", "error"⟩] := by
  rw [(c8_naming_amended "src/a.h" "struct lowercase_name \x7b" 0 "lowercase_name"
    (by decide)).1]
  decide
